import Mathlib

/-!
Shallow embedding of the fine-tuning data-preparation notebook
(create-training-data.ipynb): exchange construction, JSONL transport,
token accounting and cost estimation, together with theorems checking the
specification's claims against the embedded code.

Python integers are modelled as Nat (all quantities involved are
non-negative counts); Python floor division, which raises
ZeroDivisionError on a zero divisor, is modelled in the Except monad.
-/

namespace CTD

/-! ## Configuration constants (notebook cell 17) -/

def MAX_TOKENS_PER_EXAMPLE : Nat := 4096

def TARGET_EPOCHS : Nat := 3

def MIN_TARGET_EXAMPLES : Nat := 100

def MAX_TARGET_EXAMPLES : Nat := 25000

def MIN_DEFAULT_EPOCHS : Nat := 1

def MAX_DEFAULT_EPOCHS : Nat := 25

/-- Python floor division on naturals: a // b, raising ZeroDivisionError
when the divisor is zero. -/
def pyFloorDiv (a b : Nat) : Except String Nat :=
  if b = 0 then .error "ZeroDivisionError: integer division or modulo by zero"
  else .ok (a / b)

/-- Effective epoch count (notebook cell 17): start from TARGET_EPOCHS and
rescale when the dataset is too small or too large. The division by
n_train_examples is exactly the notebook's, with no zero guard. -/
def n_epochs_calc (n_train_examples : Nat) : Except String Nat :=
  if n_train_examples * TARGET_EPOCHS < MIN_TARGET_EXAMPLES then
    (pyFloorDiv MIN_TARGET_EXAMPLES n_train_examples).map
      (fun q => min MAX_DEFAULT_EPOCHS q)
  else if n_train_examples * TARGET_EPOCHS > MAX_TARGET_EXAMPLES then
    (pyFloorDiv MAX_TARGET_EXAMPLES n_train_examples).map
      (fun q => max MIN_DEFAULT_EPOCHS q)
  else .ok TARGET_EPOCHS

/-- Python's sum builtin on a list of naturals: left fold from 0. -/
def pySum (l : List Nat) : Nat := l.foldl (fun a b => a + b) 0

/-- Billable tokens (notebook cell 17):
sum(min(MAX_TOKENS_PER_EXAMPLE, length) for length in convo_lens). -/
def n_billing_tokens_in_dataset (convo_lens : List Nat) : Nat :=
  pySum (convo_lens.map (fun length => min MAX_TOKENS_PER_EXAMPLE length))

/-- Final billed-token estimate (notebook cell 17):
n_epochs * n_billing_tokens_in_dataset. -/
def billed_tokens_estimate (n_epochs : Nat) (convo_lens : List Nat) : Nat :=
  n_epochs * n_billing_tokens_in_dataset convo_lens

/-- Truncation count (notebook cell 15):
sum(l > 4096 for l in convo_lens), Python booleans summing as 0 or 1. -/
def n_too_long (convo_lens : List Nat) : Nat :=
  pySum (convo_lens.map (fun l => if l > 4096 then 1 else 0))

/-! ## Data model: well-formed conversation records -/

/-- A chat message: a record with a role and a content string. -/
structure Msg where
  role : String
  content : String
  deriving DecidableEq, Repr

/-- A conversation record: one training example, a list of messages. -/
structure Conv where
  messages : List Msg
  deriving DecidableEq, Repr

/-! ## Token counting

The notebook imports num_tokens_from_messages and
num_assistant_tokens_from_messages from a token_counter module that is not
part of the source tree, so both are modelled from the spec, parameterised
by the pluggable counting strategy and its two overhead constants. -/

/-- Modelled from the spec: num_tokens_from_messages from the missing
token_counter module. A fixed per-message overhead plus the counted tokens
of the role string and the content string, summed across all messages,
plus one fixed trailing overhead constant for the whole conversation. -/
def num_tokens_from_messages (count : String → Nat)
    (tokens_per_message tokens_trailing : Nat) (messages : List Msg) : Nat :=
  messages.foldl
    (fun acc m => acc + tokens_per_message + count m.role + count m.content) 0
    + tokens_trailing

/-- Modelled from the spec: num_assistant_tokens_from_messages from the
missing token_counter module. The same per-message overhead plus the
content token count, summed only over messages with role "assistant". -/
def num_assistant_tokens_from_messages (count : String → Nat)
    (tokens_per_message : Nat) (messages : List Msg) : Nat :=
  messages.foldl
    (fun acc m =>
      if m.role = "assistant" then acc + tokens_per_message + count m.content
      else acc) 0

/-! ## The warnings-and-token-counts loop (notebook cell 15) -/

/-- Accumulator of the notebook's warnings-and-token-counts loop. -/
structure ScanState where
  n_missing_system : Nat
  n_missing_user : Nat
  n_messages : List Nat
  convo_lens : List Nat
  assistant_message_lens : List Nat
  deriving DecidableEq, Repr

def initScanState : ScanState := ⟨0, 0, [], [], []⟩

/-- One iteration of the loop body of notebook cell 15 on a well-formed
conversation record. -/
def scanStep (count : String → Nat) (tokens_per_message tokens_trailing : Nat)
    (st : ScanState) (ex : Conv) : ScanState :=
  let messages := ex.messages
  let st :=
    if ¬ messages.any (fun message => message.role == "system") then
      { st with n_missing_system := st.n_missing_system + 1 }
    else st
  let st :=
    if ¬ messages.any (fun message => message.role == "user") then
      { st with n_missing_user := st.n_missing_user + 1 }
    else st
  { st with
    n_messages := st.n_messages ++ [messages.length]
    convo_lens := st.convo_lens ++
      [num_tokens_from_messages count tokens_per_message tokens_trailing messages]
    assistant_message_lens := st.assistant_message_lens ++
      [num_assistant_tokens_from_messages count tokens_per_message messages] }

/-- The warnings-and-token-counts loop of notebook cell 15 over a
well-formed dataset. -/
def tokenScan (count : String → Nat)
    (tokens_per_message tokens_trailing : Nat) (dataset : List Conv) : ScanState :=
  dataset.foldl (scanStep count tokens_per_message tokens_trailing) initScanState

/-! ## JSON-like values

Dataset entries come from json.loads, so a record can be any JSON value;
malformed records are representable. Only the constructors the claims need
appear (strings, integers, arrays, objects with insertion-ordered keys). -/

inductive JVal where
  | str (s : String)
  | num (n : Int)
  | arr (items : List JVal)
  | obj (fields : List (String × JVal))

/-- Python dict subscript v[key]: KeyError when the key is absent,
TypeError when the value is not a mapping. -/
def getItem (v : JVal) (key : String) : Except String JVal :=
  match v with
  | .obj fields =>
    match fields.lookup key with
    | some x => .ok x
    | none => .error ("KeyError: " ++ key)
  | _ => .error "TypeError: value is not subscriptable by string key"

/-- Iterating a JSON value as a list: TypeError unless it is an array. -/
def asArr (v : JVal) : Except String (List JVal) :=
  match v with
  | .arr items => .ok items
  | _ => .error "TypeError: value is not a list"

/-- Reading a JSON value as a string, as a tokenizer must: TypeError
otherwise. -/
def asStr (v : JVal) : Except String String :=
  match v with
  | .str s => .ok s
  | _ => .error "TypeError: value is not a string"

/-- Embedding of a well-formed message into a JSON object with exactly the
keys role and content, in that order. -/
def Msg.toJVal (m : Msg) : JVal :=
  .obj [("role", .str m.role), ("content", .str m.content)]

/-- Embedding of a well-formed conversation record into a JSON object with
the single key messages. -/
def Conv.toJVal (c : Conv) : JVal :=
  .obj [("messages", .arr (c.messages.map Msg.toJVal))]

/-! ## Exchange construction (notebook cell 5) -/

/-- One CSV row, with the columns the notebook reads. -/
structure Row where
  Review : String
  Rating : Int
  Sentiment : String

def system_message : String :=
  "You are a restaurant review analyzer. Analyze the sentiment in the review provided. Output the rating value and the sentiment as JSON ."

/-- create_user_message (notebook cell 5). -/
def create_user_message (row : Row) : String :=
  "Review: " ++ row.Review

/-- create_assistant_message (notebook cell 5): the f-string literal with
the rating and sentiment columns interpolated. -/
def create_assistant_message (row : Row) : String :=
  "\x7b\"rating\": " ++ toString row.Rating ++ ", \"Sentiment\": \"" ++
    row.Sentiment ++ "\"\x7d\n"

/-- create_full_exchange (notebook cell 5): builds the messages list by the
three successive appends of the source and wraps it in a dict with the
single key messages. -/
def create_full_exchange (row : Row) : JVal :=
  let messages : List JVal := []
  let messages := messages ++
    [JVal.obj [("role", .str "system"), ("content", .str system_message)]]
  let user_message := create_user_message row
  let messages := messages ++
    [JVal.obj [("role", .str "user"), ("content", .str user_message)]]
  let assistant_message := create_assistant_message row
  let messages := messages ++
    [JVal.obj [("role", .str "assistant"), ("content", .str assistant_message)]]
  JVal.obj [("messages", .arr messages)]

/-- Observer: the keys of a JSON object, in order (empty for non-objects). -/
def topKeys (v : JVal) : List String :=
  match v with
  | .obj fields => fields.map Prod.fst
  | _ => []

/-- Observer: the messages array of an exchange (empty when absent). -/
def msgList (v : JVal) : List JVal :=
  match v with
  | .obj fields =>
    match fields.lookup "messages" with
    | some (.arr ms) => ms
    | _ => []
  | _ => []

/-- Observer: the role string of a message object, when present. -/
def roleOf (v : JVal) : Option String :=
  match v with
  | .obj fields =>
    match fields.lookup "role" with
    | some (.str r) => some r
    | _ => none
  | _ => none

/-! ## Format Validator

The notebook imports check_format_errors from a check_format_errors module
that is not part of the source tree, so the validator is modelled from the
spec, section 4.1. -/

/-- An error description tied to a conversation index, optionally a message
index, with a human-readable reason. -/
structure Issue where
  convIndex : Nat
  msgIndex : Option Nat
  reason : String
  deriving DecidableEq, Repr

def recognizedRoles : List String := ["system", "user", "assistant"]

def recognizedMsgKeys : List String := ["role", "content", "function_call"]

/-- Does a raw message object carry role "assistant"? -/
def isAssistantMsg (m : JVal) : Bool :=
  match m with
  | .obj fields =>
    match fields.lookup "role" with
    | some (.str r) => r == "assistant"
    | _ => false
  | _ => false

/-- Modelled from the spec: per-message checks of the missing
check_format_errors module (spec 4.1, items 3 to 5). A non-string role
value is not in the recognized set, hence unrecognized. -/
def checkMessage (i j : Nat) (m : JVal) : List Issue :=
  match m with
  | .obj fields =>
    let roleIssues :=
      match fields.lookup "role" with
      | none => [⟨i, some j, "missing role"⟩]
      | some (.str r) =>
        if r ∈ recognizedRoles then []
        else [⟨i, some j, "unrecognized role: " ++ r⟩]
      | some _ => [⟨i, some j, "unrecognized role: non-string value"⟩]
    let contentIssues :=
      if (fields.lookup "content").isSome ∨ (fields.lookup "function_call").isSome
      then []
      else [⟨i, some j, "missing content"⟩]
    let keyIssues :=
      ((fields.map Prod.fst).filter (fun k => ¬ k ∈ recognizedMsgKeys)).map
        (fun k => (⟨i, some j, "unrecognized key: " ++ k⟩ : Issue))
    roleIssues ++ contentIssues ++ keyIssues
  | _ => [⟨i, some j, "message is not a valid object"⟩]

/-- Modelled from the spec: per-conversation checks of the missing
check_format_errors module (spec 4.1, items 1, 2 and 6 around the
per-message checks). -/
def checkRecord (i : Nat) (ex : JVal) : List Issue :=
  match ex with
  | .obj fields =>
    let keyIssues :=
      ((fields.map Prod.fst).filter (fun k => ¬ k = "messages")).map
        (fun k => (⟨i, none, "unrecognized top-level key: " ++ k⟩ : Issue))
    match fields.lookup "messages" with
    | some (.arr msgs) =>
      let msgIssues := (msgs.enum.map (fun p => checkMessage i p.1 p.2)).flatten
      let assistantIssues :=
        if msgs.any isAssistantMsg then []
        else [⟨i, none, "example missing assistant message"⟩]
      keyIssues ++ msgIssues ++ assistantIssues
    | _ => ⟨i, none, "missing/invalid messages list"⟩ :: keyIssues
  | _ => [⟨i, none, "missing/invalid messages list"⟩]

/-- Modelled from the spec: check_format_errors walks the whole dataset
with a local accumulator, collecting issues record by record and never
raising. -/
def check_format_errors (dataset : List JVal) : List Issue :=
  (dataset.foldl
    (fun (acc : List Issue × Nat) ex => (acc.1 ++ checkRecord acc.2 ex, acc.2 + 1))
    ([], 0)).1

/-! ## The accounting loop over raw records (notebook cell 15)

The notebook's loop subscripts raw parsed records directly; on a record
without a messages key, or a message without a role key, Python raises
KeyError. The loop is modelled in the Except monad. -/

/-- The generator any(message["role"] == r for message in messages):
lazily subscripts each message and stops at the first match. -/
def anyRoleIs (msgs : List JVal) (r : String) : Except String Bool :=
  match msgs with
  | [] => .ok false
  | m :: rest => do
    let rv ← getItem m "role"
    match rv with
    | .str s => if s == r then pure true else anyRoleIs rest r
    | _ => anyRoleIs rest r

/-- One message's contribution to the raw total token count, with dict
access made explicit; role and content must be present strings or the
counting step fails on that message. -/
def msgTokensRaw (count : String → Nat) (tokens_per_message : Nat)
    (acc : Nat) (m : JVal) : Except String Nat := do
  let r ← getItem m "role"
  let rs ← asStr r
  let c ← getItem m "content"
  let cs ← asStr c
  pure (acc + tokens_per_message + count rs + count cs)

/-- Modelled from the spec: num_tokens_from_messages applied to raw
records. -/
def num_tokens_from_messages_raw (count : String → Nat)
    (tokens_per_message tokens_trailing : Nat) (msgs : List JVal) :
    Except String Nat := do
  let s ← msgs.foldlM (msgTokensRaw count tokens_per_message) 0
  pure (s + tokens_trailing)

/-- One message's contribution to the raw assistant-only token count. -/
def msgAssistantRaw (count : String → Nat) (tokens_per_message : Nat)
    (acc : Nat) (m : JVal) : Except String Nat := do
  let r ← getItem m "role"
  match r with
  | .str s =>
    if s == "assistant" then do
      let c ← getItem m "content"
      let cs ← asStr c
      pure (acc + tokens_per_message + count cs)
    else pure acc
  | _ => pure acc

/-- Modelled from the spec: num_assistant_tokens_from_messages applied to
raw records. -/
def num_assistant_tokens_raw (count : String → Nat)
    (tokens_per_message : Nat) (msgs : List JVal) : Except String Nat :=
  msgs.foldlM (msgAssistantRaw count tokens_per_message) 0

/-- One iteration of the loop body of notebook cell 15 on a raw parsed
record, faulting exactly where Python would raise. -/
def scanStepRaw (count : String → Nat)
    (tokens_per_message tokens_trailing : Nat) (st : ScanState) (ex : JVal) :
    Except String ScanState := do
  let messages ← getItem ex "messages"
  let msgs ← asArr messages
  let hasSystem ← anyRoleIs msgs "system"
  let st :=
    if ¬ hasSystem then { st with n_missing_system := st.n_missing_system + 1 }
    else st
  let hasUser ← anyRoleIs msgs "user"
  let st :=
    if ¬ hasUser then { st with n_missing_user := st.n_missing_user + 1 }
    else st
  let t ← num_tokens_from_messages_raw count tokens_per_message tokens_trailing msgs
  let a ← num_assistant_tokens_raw count tokens_per_message msgs
  pure { st with
    n_messages := st.n_messages ++ [msgs.length]
    convo_lens := st.convo_lens ++ [t]
    assistant_message_lens := st.assistant_message_lens ++ [a] }

/-- The warnings-and-token-counts loop of notebook cell 15 over raw parsed
records. -/
def tokenScanRaw (count : String → Nat)
    (tokens_per_message tokens_trailing : Nat) (dataset : List JVal) :
    Except String ScanState :=
  dataset.foldlM (scanStepRaw count tokens_per_message tokens_trailing)
    initScanState

/-! ## JSONL transport (notebook cells 9 and 12)

write_jsonl serialises each record with json.dumps (default settings:
ensure_ascii, separators ", " and ": ") and appends a newline; reading
parses the file line by line with json.loads. Both are modelled
character-exactly on the record shapes this program transports: objects
with string keys role/content/messages, arrays of messages, and strings.
A file is a list of characters. -/

/-- Lowercase hexadecimal digit, as Python's format code x emits. -/
def hexDigitChar (n : Nat) : Char :=
  if n < 10 then Char.ofNat (48 + n) else Char.ofNat (87 + n)

/-- Four lowercase hex digits, the body of a JSON escape of the form u. -/
def hex4 (n : Nat) : List Char :=
  [hexDigitChar (n / 4096 % 16), hexDigitChar (n / 256 % 16),
   hexDigitChar (n / 16 % 16), hexDigitChar (n % 16)]

/-- The escape json.dumps applies to one character with ensure_ascii: the
two-character escapes for quote, backslash and the named controls, ASCII
printables verbatim, and backslash-u forms otherwise, with a surrogate
pair for astral codepoints. -/
def escChar (c : Char) : List Char :=
  if c = '"' then ['\\', '"']
  else if c = '\\' then ['\\', '\\']
  else if c = '\n' then ['\\', 'n']
  else if c = '\t' then ['\\', 't']
  else if c = '\r' then ['\\', 'r']
  else if c.toNat = 8 then ['\\', 'b']
  else if c.toNat = 12 then ['\\', 'f']
  else if 32 ≤ c.toNat ∧ c.toNat ≤ 126 then [c]
  else if c.toNat < 65536 then '\\' :: 'u' :: hex4 c.toNat
  else
    '\\' :: 'u' :: hex4 (55296 + (c.toNat - 65536) / 1024) ++
      '\\' :: 'u' :: hex4 (56320 + (c.toNat - 65536) % 1024)

def escList (cs : List Char) : List Char := (cs.map escChar).flatten

/-- The json.dumps rendering of a string. -/
def dumpString (s : String) : List Char := '"' :: (escList s.data ++ ['"'])

/-- The json.dumps rendering of a message object, keys in insertion order. -/
def dumpMsg (m : Msg) : List Char :=
  "\x7b\"role\": ".data ++ dumpString m.role ++ ", \"content\": ".data ++
    dumpString m.content ++ "\x7d".data

/-- The json.dumps rendering of the messages array. -/
def dumpMsgs (ms : List Msg) : List Char :=
  match ms with
  | [] => "[]".data
  | m :: rest =>
    '[' :: (dumpMsg m ++ (rest.map (fun x => ", ".data ++ dumpMsg x)).flatten ++ [']'])

/-- The json.dumps rendering of a conversation record. -/
def dumpConv (c : Conv) : List Char :=
  "\x7b\"messages\": ".data ++ dumpMsgs c.messages ++ "\x7d".data

/-- write_jsonl (notebook cell 9): one json.dumps rendering plus a newline
per record, written in order. -/
def write_jsonl (data_list : List Conv) : List Char :=
  ((data_list.map (fun ddict => dumpConv ddict ++ ['\n'])).flatten)

/-- Value of a hexadecimal digit character, either case, as json.loads
accepts. -/
def hexVal (c : Char) : Option Nat :=
  if 48 ≤ c.toNat ∧ c.toNat ≤ 57 then some (c.toNat - 48)
  else if 97 ≤ c.toNat ∧ c.toNat ≤ 102 then some (c.toNat - 87)
  else if 65 ≤ c.toNat ∧ c.toNat ≤ 70 then some (c.toNat - 55)
  else none

/-- The two-character string escapes json.loads recognises. -/
def simpleEsc (e : Char) : Option Char :=
  if e = '"' then some '"'
  else if e = '\\' then some '\\'
  else if e = '/' then some '/'
  else if e = 'b' then some (Char.ofNat 8)
  else if e = 'f' then some (Char.ofNat 12)
  else if e = 'n' then some '\n'
  else if e = 'r' then some '\r'
  else if e = 't' then some '\t'
  else none

/-- A scalar-value check before building a character, as the decoder must
perform; codes in the surrogate range have no character. -/
def mkChar (n : Nat) : Option Char :=
  if n.isValidChar then some (Char.ofNat n) else none

/-- Decode the characters after a backslash in a JSON string: one of the
named two-character escapes, or a backslash-u form with four hex digits,
combining a high surrogate with a following low-surrogate escape. A lone
surrogate escape is rejected here (CPython would keep it as a lone
surrogate code unit, which a Unicode scalar string cannot carry; the
writer side never emits one). Returns the decoded character and the
remaining input. -/
def decodeEscape : List Char → Option (Char × List Char)
  | [] => none
  | e :: rest2 =>
    if e = 'u' then
      match rest2 with
      | a :: b :: c1 :: d :: rest3 =>
        match hexVal a, hexVal b, hexVal c1, hexVal d with
        | some va, some vb, some vc, some vd =>
          let n := va * 4096 + vb * 256 + vc * 16 + vd
          if 55296 ≤ n ∧ n ≤ 56319 then
            match rest3 with
            | '\\' :: 'u' :: a2 :: b2 :: c2 :: d2 :: rest4 =>
              match hexVal a2, hexVal b2, hexVal c2, hexVal d2 with
              | some wa, some wb, some wc, some wd =>
                let m := wa * 4096 + wb * 256 + wc * 16 + wd
                if 56320 ≤ m ∧ m ≤ 57343 then
                  match mkChar (65536 + (n - 55296) * 1024 + (m - 56320)) with
                  | some ch => some (ch, rest4)
                  | none => none
                else none
              | _, _, _, _ => none
            | _ => none
          else if 56320 ≤ n ∧ n ≤ 57343 then none
          else
            match mkChar n with
            | some ch => some (ch, rest3)
            | none => none
        | _, _, _, _ => none
      | _ => none
    else
      match simpleEsc e with
      | some ec => some (ec, rest2)
      | none => none

/-- The json.loads string scanner after the opening quote: content
characters until the closing quote, decoding escape sequences and
rejecting raw control characters (strict mode). The fuel only bounds
recursion depth; one unit per produced character suffices. -/
def parseStringBodyF : Nat → List Char → Option (List Char × List Char)
  | _, [] => none
  | fuel, c :: rest =>
    if c = '"' then some ([], rest)
    else if c = '\\' then
      match decodeEscape rest with
      | some (ch, rest2) =>
        match fuel with
        | 0 => none
        | fuel' + 1 =>
          match parseStringBodyF fuel' rest2 with
          | some (cs, r) => some (ch :: cs, r)
          | none => none
      | none => none
    else if c.toNat < 32 then none
    else
      match fuel with
      | 0 => none
      | fuel' + 1 =>
        match parseStringBodyF fuel' rest with
        | some (cs, r) => some (c :: cs, r)
        | none => none

/-- The string scanner at its natural recursion budget: each step consumes
at least one input character, so the input length is enough fuel. -/
def parseStringBody (cs : List Char) : Option (List Char × List Char) :=
  parseStringBodyF cs.length cs

/-- A quoted JSON string. -/
def parseJString (cs : List Char) : Option (String × List Char) :=
  match cs with
  | '"' :: rest =>
    match parseStringBody rest with
    | some (l, r) => some (String.mk l, r)
    | none => none
  | _ => none

/-- Consume an expected literal character sequence. -/
def expectLit : List Char → List Char → Option (List Char)
  | [], cs => some cs
  | _ :: _, [] => none
  | l :: ls, c :: cs => if c = l then expectLit ls cs else none

/-- One message object of the transported shape. -/
def parseMsg (cs : List Char) : Option (Msg × List Char) :=
  match expectLit "\x7b\"role\": ".data cs with
  | none => none
  | some cs1 =>
    match parseJString cs1 with
    | none => none
    | some (r, cs2) =>
      match expectLit ", \"content\": ".data cs2 with
      | none => none
      | some cs3 =>
        match parseJString cs3 with
        | none => none
        | some (c, cs4) =>
          match expectLit "\x7d".data cs4 with
          | none => none
          | some cs5 => some (⟨r, c⟩, cs5)

/-- Remaining elements of a message array after the first: a comma-space
separator before each further element, then the closing bracket. The fuel
only bounds recursion depth; one unit per separator consumed suffices. -/
def parseMsgsMore : Nat → List Char → Option (List Msg × List Char)
  | _, ']' :: rest => some ([], rest)
  | fuel, ',' :: ' ' :: rest2 =>
    match fuel with
    | 0 => none
    | fuel' + 1 =>
      match parseMsg rest2 with
      | some (m, cs2) =>
        match parseMsgsMore fuel' cs2 with
        | some (ms, cs3) => some (m :: ms, cs3)
        | none => none
      | none => none
  | _, _ => none

/-- A JSON array of message objects: a first element when one is there,
then separated further elements, then the closing bracket. -/
def parseMsgs (cs : List Char) : Option (List Msg × List Char) :=
  match cs with
  | '[' :: rest =>
    match parseMsg rest with
    | some (m, cs2) =>
      match parseMsgsMore cs2.length cs2 with
      | some (ms, cs3) => some (m :: ms, cs3)
      | none => none
    | none =>
      match rest with
      | ']' :: rest2 => some ([], rest2)
      | _ => none
  | _ => none

/-- A conversation record of the transported shape. -/
def parseConv (cs : List Char) : Option (Conv × List Char) :=
  match expectLit "\x7b\"messages\": ".data cs with
  | none => none
  | some cs1 =>
    match parseMsgs cs1 with
    | some (ms, cs2) =>
      match expectLit "\x7d".data cs2 with
      | some cs3 => some (⟨ms⟩, cs3)
      | none => none
    | none => none

/-- json.loads on one line: the whole line must be a single record. -/
def json_loads_line (line : List Char) : Option Conv :=
  match parseConv line with
  | some (c, []) => some c
  | _ => none

/-- Splitting a file into lines at newline characters, as iterating a
Python file handle and json.loads together behave on JSONL input. -/
def splitLinesAux : List Char → List Char → List (List Char)
  | [], acc => if acc.isEmpty then [] else [acc.reverse]
  | c :: cs, acc =>
    if c = '\n' then acc.reverse :: splitLinesAux cs []
    else splitLinesAux cs (c :: acc)

/-- Reading a JSONL file back (notebook cell 12): one json.loads per line. -/
def read_jsonl (file : List Char) : Option (List Conv) :=
  (splitLinesAux file []).mapM json_loads_line

/-! ## Helper lemmas -/

theorem foldl_add_eq (l : List Nat) (acc : Nat) :
    l.foldl (fun a b => a + b) acc = acc + l.sum := by
  induction l generalizing acc with
  | nil => simp
  | cons x xs ih => simp [ih, Nat.add_assoc]

theorem pySum_eq_sum (l : List Nat) : pySum l = l.sum := by
  simp [pySum, foldl_add_eq]

theorem pySum_ite (p : Nat → Prop) [DecidablePred p] (l : List Nat) :
    pySum (l.map (fun x => if p x then 1 else 0))
      = l.countP (fun x => decide (p x)) := by
  rw [pySum_eq_sum]
  induction l with
  | nil => simp
  | cons x xs ih => by_cases h : p x <;> simp [h, ih, List.countP_cons] <;> omega

theorem scanStep_convo_lens (count : String → Nat)
    (tokens_per_message tokens_trailing : Nat) (st : ScanState) (ex : Conv) :
    (scanStep count tokens_per_message tokens_trailing st ex).convo_lens
      = st.convo_lens ++
        [num_tokens_from_messages count tokens_per_message tokens_trailing
          ex.messages] := by
  simp only [scanStep]
  split <;> split <;> rfl

theorem scanStep_missing_system (count : String → Nat)
    (tokens_per_message tokens_trailing : Nat) (st : ScanState) (ex : Conv) :
    (scanStep count tokens_per_message tokens_trailing st ex).n_missing_system
      = st.n_missing_system +
        (if ex.messages.any (fun m => m.role == "system") then 0 else 1) := by
  simp only [scanStep]
  split <;> split <;> simp_all

theorem scanStep_missing_user (count : String → Nat)
    (tokens_per_message tokens_trailing : Nat) (st : ScanState) (ex : Conv) :
    (scanStep count tokens_per_message tokens_trailing st ex).n_missing_user
      = st.n_missing_user +
        (if ex.messages.any (fun m => m.role == "user") then 0 else 1) := by
  simp only [scanStep]
  split <;> split <;> simp_all

theorem scan_convo_lens_length (count : String → Nat)
    (tokens_per_message tokens_trailing : Nat) (dataset : List Conv) :
    ∀ st : ScanState,
      ((dataset.foldl (scanStep count tokens_per_message tokens_trailing)
        st).convo_lens).length = st.convo_lens.length + dataset.length := by
  induction dataset with
  | nil => intro st; simp
  | cons x xs ih =>
    intro st
    simp only [List.foldl_cons, ih, scanStep_convo_lens, List.length_append,
      List.length_cons, List.length_nil]
    omega

theorem scan_missing_system (count : String → Nat)
    (tokens_per_message tokens_trailing : Nat) (dataset : List Conv) :
    ∀ st : ScanState,
      ((dataset.foldl (scanStep count tokens_per_message tokens_trailing)
        st)).n_missing_system
        = st.n_missing_system +
          dataset.countP
            (fun ex => ! ex.messages.any (fun m => m.role == "system")) := by
  induction dataset with
  | nil => intro st; simp
  | cons x xs ih =>
    intro st
    rw [List.foldl_cons, ih, scanStep_missing_system, List.countP_cons]
    by_cases h : x.messages.any (fun m => m.role == "system") <;> simp [h] <;> omega

theorem scan_missing_user (count : String → Nat)
    (tokens_per_message tokens_trailing : Nat) (dataset : List Conv) :
    ∀ st : ScanState,
      ((dataset.foldl (scanStep count tokens_per_message tokens_trailing)
        st)).n_missing_user
        = st.n_missing_user +
          dataset.countP
            (fun ex => ! ex.messages.any (fun m => m.role == "user")) := by
  induction dataset with
  | nil => intro st; simp
  | cons x xs ih =>
    intro st
    rw [List.foldl_cons, ih, scanStep_missing_user, List.countP_cons]
    by_cases h : x.messages.any (fun m => m.role == "user") <;> simp [h] <;> omega

theorem foldl_token_sum (count : String → Nat) (tokens_per_message : Nat)
    (messages : List Msg) :
    ∀ acc : Nat,
      messages.foldl
        (fun acc m => acc + tokens_per_message + count m.role + count m.content)
        acc
        = acc +
          (messages.map
            (fun m => tokens_per_message + count m.role + count m.content)).sum := by
  induction messages with
  | nil => intro acc; simp
  | cons m ms ih => intro acc; simp [ih]; omega

theorem foldl_assistant_sum (count : String → Nat) (tokens_per_message : Nat)
    (messages : List Msg) :
    ∀ acc : Nat,
      messages.foldl
        (fun acc m =>
          if m.role = "assistant" then acc + tokens_per_message + count m.content
          else acc)
        acc
        = acc +
          ((messages.filter (fun m => m.role == "assistant")).map
            (fun m => tokens_per_message + count m.content)).sum := by
  induction messages with
  | nil => intro acc; simp
  | cons m ms ih =>
    intro acc
    by_cases h : m.role = "assistant" <;> simp [h, ih] <;> omega

/-! ## Claim theorems -/

/-- C1: for every dataset of n > 0 examples with target epochs 3, the
effective epoch count equals min(25, 100 // n) when n * 3 < 100,
max(1, 25000 // n) when n * 3 > 25000, and 3 unchanged otherwise; in
particular n = 10 yields 10 and n = 30000 yields 1. -/
theorem claim_C1_effective_epochs (n : Nat) (h : 0 < n) :
    (n * 3 < 100 → n_epochs_calc n = .ok (min 25 (100 / n))) ∧
    (n * 3 > 25000 → n_epochs_calc n = .ok (max 1 (25000 / n))) ∧
    (¬ n * 3 < 100 → ¬ n * 3 > 25000 → n_epochs_calc n = .ok 3) ∧
    n_epochs_calc 10 = .ok 10 ∧ n_epochs_calc 30000 = .ok 1 := by
  have hz : n ≠ 0 := Nat.pos_iff_ne_zero.mp h
  refine ⟨?_, ?_, ?_, by rfl, by rfl⟩
  · intro hlt
    simp [n_epochs_calc, TARGET_EPOCHS, MIN_TARGET_EXAMPLES, MAX_TARGET_EXAMPLES,
      MIN_DEFAULT_EPOCHS, MAX_DEFAULT_EPOCHS, pyFloorDiv, hlt, hz, Except.map]
  · intro hgt
    have h1 : ¬ n * 3 < 100 := by omega
    simp [n_epochs_calc, TARGET_EPOCHS, MIN_TARGET_EXAMPLES, MAX_TARGET_EXAMPLES,
      MIN_DEFAULT_EPOCHS, MAX_DEFAULT_EPOCHS, pyFloorDiv, hgt, h1, hz, Except.map]
  · intro h1 h2
    simp [n_epochs_calc, TARGET_EPOCHS, MIN_TARGET_EXAMPLES, MAX_TARGET_EXAMPLES,
      MIN_DEFAULT_EPOCHS, MAX_DEFAULT_EPOCHS, h1, h2]

/-- C1 witness: the theorem applied at the concrete sizes 10 and 30000. -/
theorem claim_C1_effective_epochs_witness :
    n_epochs_calc 10 = Except.ok 10 ∧ n_epochs_calc 30000 = Except.ok 1 := by
  have h10 := claim_C1_effective_epochs 10 (by norm_num)
  have h30 := claim_C1_effective_epochs 30000 (by norm_num)
  exact ⟨h10.2.2.2.1, h30.2.2.2.2⟩

/-- C2: total billable tokens are the sum over conversations of
min(4096, total token count), and the final billed-token estimate is the
effective epoch count times that sum. -/
theorem claim_C2_billable_tokens (convo_lens : List Nat) (n_epochs : Nat) :
    n_billing_tokens_in_dataset convo_lens
      = (convo_lens.map (fun length => min 4096 length)).sum ∧
    billed_tokens_estimate n_epochs convo_lens
      = n_epochs * (convo_lens.map (fun length => min 4096 length)).sum := by
  constructor <;>
    simp [n_billing_tokens_in_dataset, billed_tokens_estimate, pySum_eq_sum,
      MAX_TOKENS_PER_EXAMPLE]

/-- C3 (code bug in the source): on the empty dataset the epoch-scaling
step divides by zero, which Python raises as ZeroDivisionError; the claim
and spec require the division to be guarded with a zero-cost fallback.
The billing sum itself would degenerate to zero. -/
theorem claim_C3_zero_guard_missing :
    n_epochs_calc 0
      = .error "ZeroDivisionError: integer division or modulo by zero" ∧
    n_billing_tokens_in_dataset [] = 0 := ⟨rfl, rfl⟩

/-- C4: the truncation count is the number of conversations with total
token count strictly above 4096; a conversation of exactly 4096 tokens is
not counted; 2 of 5 over the limit gives 2; flagged conversations still
contribute min 4096 l to billing and stay in the per-conversation
statistics (one entry per dataset record). -/
theorem claim_C4_truncation_count (convo_lens : List Nat) (l : Nat)
    (rest : List Nat) (count : String → Nat)
    (tokens_per_message tokens_trailing : Nat) (dataset : List Conv) :
    n_too_long convo_lens = convo_lens.countP (fun x => decide (4096 < x)) ∧
    n_too_long [4096] = 0 ∧
    n_too_long [5000, 100, 4097, 4096, 10] = 2 ∧
    n_billing_tokens_in_dataset (l :: rest)
      = min 4096 l + n_billing_tokens_in_dataset rest ∧
    ((tokenScan count tokens_per_message tokens_trailing
      dataset).convo_lens).length = dataset.length := by
  refine ⟨?_, by decide, by decide, ?_, ?_⟩
  · simpa [n_too_long] using pySum_ite (fun x => 4096 < x) convo_lens
  · simp [n_billing_tokens_in_dataset, pySum_eq_sum, MAX_TOKENS_PER_EXAMPLE]
  · simpa [tokenScan, initScanState] using
      scan_convo_lens_length count tokens_per_message tokens_trailing dataset
        initScanState

/-- C7: the missing-field tally reports exactly the number of
conversations with no system-role message and, separately, with no
user-role message; the scan state carries only counters and statistics,
no validation Issues. -/
theorem claim_C7_missing_tally (count : String → Nat)
    (tokens_per_message tokens_trailing : Nat) (dataset : List Conv) :
    (tokenScan count tokens_per_message tokens_trailing
        dataset).n_missing_system
      = dataset.countP
          (fun ex => ! ex.messages.any (fun m => m.role == "system")) ∧
    (tokenScan count tokens_per_message tokens_trailing
        dataset).n_missing_user
      = dataset.countP
          (fun ex => ! ex.messages.any (fun m => m.role == "user")) := by
  constructor
  · simpa [tokenScan, initScanState] using
      scan_missing_system count tokens_per_message tokens_trailing dataset
        initScanState
  · simpa [tokenScan, initScanState] using
      scan_missing_user count tokens_per_message tokens_trailing dataset
        initScanState

/-- C9: for every counting strategy and overhead constants, the total
token count of a conversation is the sum over messages of per-message
overhead plus role tokens plus content tokens, plus the trailing
overhead; the assistant-only count is overhead plus content tokens
summed over assistant messages only. -/
theorem claim_C9_token_accounting (count : String → Nat)
    (tokens_per_message tokens_trailing : Nat) (messages : List Msg) :
    num_tokens_from_messages count tokens_per_message tokens_trailing messages
      = (messages.map
          (fun m => tokens_per_message + count m.role + count m.content)).sum
        + tokens_trailing ∧
    num_assistant_tokens_from_messages count tokens_per_message messages
      = ((messages.filter (fun m => m.role == "assistant")).map
          (fun m => tokens_per_message + count m.content)).sum := by
  constructor
  · simpa [num_tokens_from_messages] using
      foldl_token_sum count tokens_per_message messages 0
  · simpa [num_assistant_tokens_from_messages] using
      foldl_assistant_sum count tokens_per_message messages 0

theorem check_format_errors_foldl (dataset : List JVal) :
    ∀ (acc : List Issue) (i : Nat),
      (dataset.foldl
        (fun (a : List Issue × Nat) ex => (a.1 ++ checkRecord a.2 ex, a.2 + 1))
        (acc, i)).1
        = acc ++ ((List.enumFrom i dataset).map
            (fun p => checkRecord p.1 p.2)).flatten := by
  induction dataset with
  | nil => intro acc i; simp
  | cons x xs ih =>
    intro acc i
    simp only [List.foldl_cons, ih, List.enumFrom, List.map_cons, List.flatten_cons,
      List.append_assoc]

theorem getItem_toJVal_role (m : Msg) :
    getItem (Msg.toJVal m) "role" = .ok (.str m.role) := rfl

theorem getItem_toJVal_content (m : Msg) :
    getItem (Msg.toJVal m) "content" = .ok (.str m.content) := rfl

theorem anyRoleIs_toJVal (r : String) (msgs : List Msg) :
    anyRoleIs (msgs.map Msg.toJVal) r = .ok (msgs.any (fun m => m.role == r)) := by
  induction msgs with
  | nil => rfl
  | cons m rest ih =>
    simp only [List.map_cons, anyRoleIs, getItem_toJVal_role, List.any_cons]
    cases h : m.role == r <;>
      simp [h, ih, Bind.bind, Except.bind, pure, Except.pure]

theorem msgTokensRaw_toJVal (count : String → Nat) (tokens_per_message : Nat)
    (acc : Nat) (m : Msg) :
    msgTokensRaw count tokens_per_message acc (Msg.toJVal m)
      = .ok (acc + tokens_per_message + count m.role + count m.content) := rfl

theorem msgAssistantRaw_toJVal (count : String → Nat) (tokens_per_message : Nat)
    (acc : Nat) (m : Msg) :
    msgAssistantRaw count tokens_per_message acc (Msg.toJVal m)
      = .ok (if m.role = "assistant" then acc + tokens_per_message + count m.content
          else acc) := by
  have hr : getItem (Msg.toJVal m) "role" = .ok (.str m.role) := rfl
  by_cases h : m.role = "assistant" <;>
    simp [msgAssistantRaw, hr, getItem_toJVal_content, asStr,
      Bind.bind, Except.bind, pure, Except.pure, h]

theorem tokens_raw_fold_toJVal (count : String → Nat) (tokens_per_message : Nat)
    (l : List Msg) :
    ∀ acc : Nat,
      (l.map Msg.toJVal).foldlM (msgTokensRaw count tokens_per_message) acc
        = Except.ok (l.foldl
            (fun acc m => acc + tokens_per_message + count m.role + count m.content)
            acc) := by
  induction l with
  | nil => intro acc; rfl
  | cons m rest ih =>
    intro acc
    simp [List.foldlM_cons, msgTokensRaw_toJVal, Bind.bind, Except.bind, ih]

theorem assistant_raw_fold_toJVal (count : String → Nat)
    (tokens_per_message : Nat) (l : List Msg) :
    ∀ acc : Nat,
      (l.map Msg.toJVal).foldlM (msgAssistantRaw count tokens_per_message) acc
        = Except.ok (l.foldl
            (fun acc m =>
              if m.role = "assistant" then acc + tokens_per_message + count m.content
              else acc)
            acc) := by
  induction l with
  | nil => intro acc; rfl
  | cons m rest ih =>
    intro acc
    simp [List.foldlM_cons, msgAssistantRaw_toJVal, Bind.bind, Except.bind, ih]

theorem num_tokens_raw_toJVal (count : String → Nat)
    (tokens_per_message tokens_trailing : Nat) (msgs : List Msg) :
    num_tokens_from_messages_raw count tokens_per_message tokens_trailing
        (msgs.map Msg.toJVal)
      = .ok (num_tokens_from_messages count tokens_per_message tokens_trailing
          msgs) := by
  simp [num_tokens_from_messages_raw, num_tokens_from_messages,
    tokens_raw_fold_toJVal, Bind.bind, Except.bind, pure, Except.pure]

theorem num_assistant_raw_toJVal (count : String → Nat)
    (tokens_per_message : Nat) (msgs : List Msg) :
    num_assistant_tokens_raw count tokens_per_message (msgs.map Msg.toJVal)
      = .ok (num_assistant_tokens_from_messages count tokens_per_message msgs) := by
  simp [num_assistant_tokens_raw, num_assistant_tokens_from_messages,
    assistant_raw_fold_toJVal]

theorem scanStepRaw_toJVal (count : String → Nat)
    (tokens_per_message tokens_trailing : Nat) (st : ScanState) (ex : Conv) :
    scanStepRaw count tokens_per_message tokens_trailing st (Conv.toJVal ex)
      = .ok (scanStep count tokens_per_message tokens_trailing st ex) := by
  have hmsg : getItem (Conv.toJVal ex) "messages"
      = .ok (.arr (ex.messages.map Msg.toJVal)) := rfl
  simp [scanStepRaw, scanStep, hmsg, asArr, anyRoleIs_toJVal,
    num_tokens_raw_toJVal, num_assistant_raw_toJVal, Bind.bind, Except.bind,
    pure, Except.pure, List.length_map]

theorem tokenScanRaw_wellformed_aux (count : String → Nat)
    (tokens_per_message tokens_trailing : Nat) (dataset : List Conv) :
    ∀ st : ScanState,
      (dataset.map Conv.toJVal).foldlM
        (scanStepRaw count tokens_per_message tokens_trailing) st
        = .ok (dataset.foldl (scanStep count tokens_per_message tokens_trailing)
            st) := by
  induction dataset with
  | nil => intro st; rfl
  | cons x xs ih =>
    intro st
    simp [List.foldlM_cons, scanStepRaw_toJVal, Bind.bind, Except.bind, ih]

/-- C6: every exchange built by create_full_exchange is an object with the
single key messages holding a non-empty list of exactly three messages,
roles system, user, assistant in order, one of each, every message an
object with exactly the keys role and content. -/
theorem claim_C6_exchange_invariant (row : Row) :
    topKeys (create_full_exchange row) = ["messages"] ∧
    msgList (create_full_exchange row) ≠ [] ∧
    (msgList (create_full_exchange row)).length = 3 ∧
    (msgList (create_full_exchange row)).map roleOf
      = [some "system", some "user", some "assistant"] ∧
    (msgList (create_full_exchange row)).countP
      (fun m => roleOf m == some "system") = 1 ∧
    (msgList (create_full_exchange row)).countP
      (fun m => roleOf m == some "user") = 1 ∧
    (msgList (create_full_exchange row)).countP
      (fun m => roleOf m == some "assistant") = 1 ∧
    (msgList (create_full_exchange row)).all
      (fun m => topKeys m == ["role", "content"]) = true := by
  refine ⟨rfl, ?_, rfl, rfl, rfl, rfl, rfl, rfl⟩
  exact fun h => List.cons_ne_nil _ _ h

/-- C6 witness: the invariant at a concrete row. -/
theorem claim_C6_exchange_invariant_witness :
    topKeys (create_full_exchange ⟨"The food was wonderful!", 5, "Positive"⟩)
      = ["messages"] ∧
    (msgList (create_full_exchange ⟨"The food was wonderful!", 5, "Positive"⟩)).map
      roleOf = [some "system", some "user", some "assistant"] :=
  ⟨(claim_C6_exchange_invariant ⟨"The food was wonderful!", 5, "Positive"⟩).1,
   (claim_C6_exchange_invariant ⟨"The food was wonderful!", 5, "Positive"⟩).2.2.2.1⟩

/-- C8: the validator returns the ordered concatenation of the issues of
every record, one record after the other, so a malformed record never
stops inspection of the rest; it returns a possibly empty list and, being
a total function into List Issue, never raises. Two malformed records
both get reported. -/
theorem claim_C8_validator_exhaustive (dataset : List JVal) :
    check_format_errors dataset
      = ((dataset.enum.map (fun p => checkRecord p.1 p.2)).flatten) ∧
    check_format_errors [] = [] ∧
    check_format_errors [JVal.num 1, JVal.obj []]
      = [⟨0, none, "missing/invalid messages list"⟩,
         ⟨1, none, "missing/invalid messages list"⟩] := by
  refine ⟨?_, rfl, rfl⟩
  simpa [check_format_errors, List.enum] using
    check_format_errors_foldl dataset [] 0

/-- C10: the accounting loop is total on datasets whose records all carry
a messages key with role-keyed message objects (every well-formed dataset
scans to the same statistics the typed loop computes), but a record
without a messages key, or a message without a role key, makes it raise a
KeyError instead of recording an issue or skipping the record. -/
theorem claim_C10_accounting_partiality (count : String → Nat)
    (tokens_per_message tokens_trailing : Nat) :
    tokenScanRaw count tokens_per_message tokens_trailing
        [JVal.obj [("prompt", .str "hi")]]
      = .error "KeyError: messages" ∧
    tokenScanRaw count tokens_per_message tokens_trailing
        [JVal.obj [("messages", .arr [JVal.obj [("content", .str "x")]])]]
      = .error "KeyError: role" ∧
    ∀ dataset : List Conv,
      tokenScanRaw count tokens_per_message tokens_trailing
          (dataset.map Conv.toJVal)
        = .ok (tokenScan count tokens_per_message tokens_trailing dataset) := by
  refine ⟨rfl, rfl, fun dataset => ?_⟩
  simpa [tokenScanRaw, tokenScan] using
    tokenScanRaw_wellformed_aux count tokens_per_message tokens_trailing
      dataset initScanState

/-! ## Round-trip of the JSONL transport -/

theorem hexVal_hexDigitChar {d : Nat} (h : d < 16) :
    hexVal (hexDigitChar d) = some d := by
  interval_cases d <;> rfl

theorem hexVal_hexDigitChar_mod (m : Nat) :
    hexVal (hexDigitChar (m % 16)) = some (m % 16) :=
  hexVal_hexDigitChar (Nat.mod_lt _ (by norm_num))

theorem toNat_ofNat_valid {n : Nat} (h : n.isValidChar) :
    (Char.ofNat n).toNat = n := by
  unfold Char.ofNat
  rw [dif_pos h]
  rfl

theorem mkChar_valid {n : Nat} (h : n.isValidChar) :
    mkChar n = some (Char.ofNat n) := by
  unfold mkChar
  rw [if_pos h]

theorem mkChar_toNat (c : Char) : mkChar c.toNat = some c := by
  have hv : Nat.isValidChar c.toNat := c.valid
  rw [mkChar_valid hv, Char.ofNat_toNat]

theorem decodeEscape_u (n : Nat) (hn : n < 65536) (hval : n.isValidChar)
    (tail : List Char) :
    decodeEscape ('u' :: (hex4 n ++ tail)) = some (Char.ofNat n, tail) := by
  have hsur1 : ¬ (55296 ≤ n ∧ n ≤ 56319) := by
    rcases hval with h | h <;> omega
  have hsur2 : ¬ (56320 ≤ n ∧ n ≤ 57343) := by
    rcases hval with h | h <;> omega
  have hrec : n / 4096 % 16 * 4096 + n / 256 % 16 * 256 + n / 16 % 16 * 16 + n % 16
      = n := by omega
  simp only [hex4, List.cons_append, List.nil_append, decodeEscape,
    hexVal_hexDigitChar_mod, hrec, hsur1, hsur2, reduceIte,
    mkChar_valid hval]

theorem decodeEscape_surrogates (hi lo : Nat) (hhi : 55296 ≤ hi ∧ hi ≤ 56319)
    (hlo : 56320 ≤ lo ∧ lo ≤ 57343) (tail : List Char) :
    decodeEscape ('u' :: (hex4 hi ++ ('\\' :: 'u' :: (hex4 lo ++ tail))))
      = some (Char.ofNat (65536 + (hi - 55296) * 1024 + (lo - 56320)), tail) := by
  have hvalc : (65536 + (hi - 55296) * 1024 + (lo - 56320)).isValidChar :=
    Or.inr (by omega)
  have hrechi : hi / 4096 % 16 * 4096 + hi / 256 % 16 * 256 +
      hi / 16 % 16 * 16 + hi % 16 = hi := by omega
  have hreclo : lo / 4096 % 16 * 4096 + lo / 256 % 16 * 256 +
      lo / 16 % 16 * 16 + lo % 16 = lo := by omega
  simp only [hex4, List.cons_append, List.nil_append]
  rw [decodeEscape]
  simp only [hexVal_hexDigitChar_mod, reduceIte]
  rw [hrechi, hreclo, if_pos hhi, if_pos hlo, mkChar_valid hvalc]

theorem decodeEscape_u_pair (t : Nat) (h1 : 65536 ≤ t) (h2 : t < 1114112)
    (tail : List Char) :
    decodeEscape
        ('u' :: (hex4 (55296 + (t - 65536) / 1024) ++
          ('\\' :: 'u' :: (hex4 (56320 + (t - 65536) % 1024) ++ tail))))
      = some (Char.ofNat t, tail) := by
  have hcomb : 65536 + (55296 + (t - 65536) / 1024 - 55296) * 1024 +
      (56320 + (t - 65536) % 1024 - 56320) = t := by omega
  have base := decodeEscape_surrogates (55296 + (t - 65536) / 1024)
    (56320 + (t - 65536) % 1024) (by omega) (by omega) tail
  rw [hcomb] at base
  exact base

theorem parseStringBodyF_escChar (c : Char) {fuel : Nat} {tail cs rest : List Char}
    (ih : parseStringBodyF fuel tail = some (cs, rest)) :
    parseStringBodyF (fuel + 1) (escChar c ++ tail) = some (c :: cs, rest) := by
  have hv : Nat.isValidChar c.toNat := c.valid
  by_cases h1 : c = '"'
  · subst h1
    simp [escChar, parseStringBodyF, decodeEscape, simpleEsc, ih]
  by_cases h2 : c = '\\'
  · subst h2
    simp [escChar, parseStringBodyF, decodeEscape, simpleEsc, ih]
  by_cases h3 : c = '\n'
  · subst h3
    simp [escChar, parseStringBodyF, decodeEscape, simpleEsc, ih]
  by_cases h4 : c = '\t'
  · subst h4
    simp [escChar, parseStringBodyF, decodeEscape, simpleEsc, ih]
  by_cases h5 : c = '\r'
  · subst h5
    simp [escChar, parseStringBodyF, decodeEscape, simpleEsc, ih]
  by_cases h6 : c.toNat = 8
  · have hc : c = Char.ofNat 8 := by rw [← Char.ofNat_toNat c, h6]
    subst hc
    simp [escChar, parseStringBodyF, decodeEscape, simpleEsc, ih]
  by_cases h7 : c.toNat = 12
  · have hc : c = Char.ofNat 12 := by rw [← Char.ofNat_toNat c, h7]
    subst hc
    simp [escChar, parseStringBodyF, decodeEscape, simpleEsc, ih]
  by_cases h8 : 32 ≤ c.toNat ∧ c.toNat ≤ 126
  · have h32 : ¬ c.toNat < 32 := by omega
    simp [escChar, parseStringBodyF, h1, h2, h3, h4, h5, h6, h7, h8, h32, ih]
  by_cases h9 : c.toNat < 65536
  · have hesc : escChar c = '\\' :: 'u' :: hex4 c.toNat := by
      simp [escChar, h1, h2, h3, h4, h5, h6, h7, h8, h9]
    rw [hesc]
    simp only [List.cons_append]
    simp [parseStringBodyF, decodeEscape_u c.toNat h9 hv, Char.ofNat_toNat, ih]
  · have hrange : 65536 ≤ c.toNat ∧ c.toNat < 1114112 := by
      rcases hv with h | h <;> omega
    have hesc : escChar c
        = ('\\' :: ('u' :: hex4 (55296 + (c.toNat - 65536) / 1024))) ++
          ('\\' :: ('u' :: hex4 (56320 + (c.toNat - 65536) % 1024))) := by
      simp [escChar, h1, h2, h3, h4, h5, h6, h7, h8, h9]
    rw [hesc]
    simp only [List.cons_append, List.append_assoc, List.nil_append]
    rw [parseStringBodyF]
    rw [if_neg (by decide : ¬ ('\\' : Char) = '"')]
    rw [decodeEscape_u_pair c.toNat hrange.1 hrange.2, Char.ofNat_toNat]
    simp [ih]

theorem parseStringBodyF_escList (cs : List Char) :
    ∀ (fuel : Nat) (X : List Char),
      parseStringBodyF (cs.length + fuel) (escList cs ++ '"' :: X)
        = some (cs, X) := by
  induction cs with
  | nil =>
    intro fuel X
    have h0 : escList [] ++ '"' :: X = '"' :: X := by simp [escList]
    rw [h0]
    cases fuel <;> simp [parseStringBodyF]
  | cons c cs' ih =>
    intro fuel X
    have h1 : escList (c :: cs') ++ '"' :: X
        = escChar c ++ (escList cs' ++ '"' :: X) := by
      simp [escList]
    have h2 : (c :: cs').length + fuel = cs'.length + fuel + 1 := by
      simp [Nat.add_right_comm]
    rw [h1, h2]
    exact parseStringBodyF_escChar c (ih fuel X)

theorem escChar_length_pos (c : Char) : 1 ≤ (escChar c).length := by
  unfold escChar
  split_ifs <;> simp [hex4]

theorem escList_length_ge (cs : List Char) : cs.length ≤ (escList cs).length := by
  induction cs with
  | nil => simp [escList]
  | cons c cs' ih =>
    have hc := escChar_length_pos c
    simp only [escList, List.map_cons, List.flatten_cons, List.length_append,
      List.length_cons]
    simp only [escList] at ih
    omega

theorem parseStringBody_escList (cs X : List Char) :
    parseStringBody (escList cs ++ '"' :: X) = some (cs, X) := by
  unfold parseStringBody
  have hge : cs.length ≤ (escList cs ++ '"' :: X).length := by
    have := escList_length_ge cs
    simp only [List.length_append, List.length_cons]
    omega
  obtain ⟨k, hk⟩ := Nat.le.dest hge
  rw [← hk]
  exact parseStringBodyF_escList cs k X

theorem parseJString_dumpString (s : String) (X : List Char) :
    parseJString (dumpString s ++ X) = some (s, X) := by
  have h1 : dumpString s ++ X = '"' :: (escList s.data ++ '"' :: X) := by
    simp [dumpString]
  rw [h1]
  simp [parseJString, parseStringBody_escList]

theorem expectLit_append (lit rest : List Char) :
    expectLit lit (lit ++ rest) = some rest := by
  induction lit with
  | nil => rfl
  | cons l ls ih => simp [expectLit, ih]

theorem parseMsg_dumpMsg (m : Msg) (X : List Char) :
    parseMsg (dumpMsg m ++ X) = some (m, X) := by
  have h1 : dumpMsg m ++ X
      = "\x7b\"role\": ".data ++ (dumpString m.role ++
        (", \"content\": ".data ++ (dumpString m.content ++
          ("\x7d".data ++ X)))) := by
    simp only [dumpMsg, List.append_assoc]
  rw [h1]
  simp only [parseMsg, expectLit_append, parseJString_dumpString]

theorem parseMsgsMore_sep (ms : List Msg) :
    ∀ (fuel : Nat) (X : List Char), ms.length ≤ fuel →
      parseMsgsMore fuel
        ((ms.map (fun x => ", ".data ++ dumpMsg x)).flatten ++ ']' :: X)
        = some (ms, X) := by
  induction ms with
  | nil => intro fuel X h; simp [parseMsgsMore]
  | cons m ms' ih =>
    intro fuel X h
    cases fuel with
    | zero => simp at h
    | succ fuel' =>
      have h1 : ((m :: ms').map (fun x => ", ".data ++ dumpMsg x)).flatten
            ++ ']' :: X
          = ',' :: ' ' :: (dumpMsg m ++
            ((ms'.map (fun x => ", ".data ++ dumpMsg x)).flatten ++ ']' :: X)) := by
        simp only [List.map_cons, List.flatten_cons, List.append_assoc]
        rfl
      rw [h1]
      have hih := ih fuel' X (by simpa using h)
      simp only [parseMsgsMore, parseMsg_dumpMsg, hih]

theorem sep_flatten_length_ge (ms : List Msg) :
    ms.length ≤ ((ms.map (fun x => ", ".data ++ dumpMsg x)).flatten).length := by
  induction ms with
  | nil => simp
  | cons m ms' ih =>
    simp only [List.map_cons, List.flatten_cons, List.length_append,
      List.length_cons, List.cons_append, List.nil_append] at ih ⊢
    omega

theorem parseMsgs_dumpMsgs (ms : List Msg) (X : List Char) :
    parseMsgs (dumpMsgs ms ++ X) = some (ms, X) := by
  cases ms with
  | nil =>
    have h1 : dumpMsgs [] ++ X = '[' :: ']' :: X := rfl
    have h2 : parseMsg (']' :: X) = none := rfl
    rw [h1]
    simp only [parseMsgs, h2]
  | cons m ms' =>
    have h1 : dumpMsgs (m :: ms') ++ X
        = '[' :: (dumpMsg m ++
          ((ms'.map (fun x => ", ".data ++ dumpMsg x)).flatten ++ ']' :: X)) := by
      simp only [dumpMsgs, List.cons_append, List.nil_append, List.append_assoc]
    rw [h1]
    have hlen : ms'.length ≤
        ((ms'.map (fun x => ", ".data ++ dumpMsg x)).flatten ++ ']' :: X).length := by
      have base := sep_flatten_length_ge ms'
      simp only [List.length_append, List.length_cons] at base ⊢
      omega
    simp only [parseMsgs, parseMsg_dumpMsg, parseMsgsMore_sep ms' _ X hlen]

theorem parseConv_dumpConv (c : Conv) (X : List Char) :
    parseConv (dumpConv c ++ X) = some (c, X) := by
  have h1 : dumpConv c ++ X
      = "\x7b\"messages\": ".data ++ (dumpMsgs c.messages ++
        ("\x7d".data ++ X)) := by
    simp only [dumpConv, List.append_assoc]
  rw [h1]
  simp only [parseConv, expectLit_append, parseMsgs_dumpMsgs]

theorem json_loads_line_dumpConv (c : Conv) :
    json_loads_line (dumpConv c) = some c := by
  have h2 : parseConv (dumpConv c) = some (c, []) := by
    have base := parseConv_dumpConv c []
    simpa using base
  simp [json_loads_line, h2]

theorem hexDigitChar_ne_nl {d : Nat} (h : d < 16) : hexDigitChar d ≠ '\n' := by
  interval_cases d <;> decide

theorem mem_hex4_ne_nl (n : Nat) : ∀ x ∈ hex4 n, x ≠ '\n' := by
  intro x hx
  simp [hex4] at hx
  rcases hx with h | h | h | h <;> subst h <;>
    exact hexDigitChar_ne_nl (Nat.mod_lt _ (by norm_num))

theorem escChar_ne_nl (c : Char) : ∀ x ∈ escChar c, x ≠ '\n' := by
  unfold escChar
  split_ifs with h1 h2 h3 h4 h5 h6 h7 h8 h9
  · decide
  · decide
  · decide
  · decide
  · decide
  · decide
  · decide
  · intro x hx
    simp at hx
    subst hx
    intro hc
    subst hc
    simp at h8
  · intro x hx
    simp only [List.mem_cons] at hx
    rcases hx with h | h | h
    · subst h; decide
    · subst h; decide
    · exact mem_hex4_ne_nl _ x h
  · intro x hx
    simp only [List.mem_cons, List.cons_append] at hx
    rcases hx with h | h | h
    · subst h; decide
    · subst h; decide
    · rcases List.mem_append.mp h with h2 | h2
      · exact mem_hex4_ne_nl _ x h2
      · simp only [List.mem_cons] at h2
        rcases h2 with h3 | h3 | h3
        · subst h3; decide
        · subst h3; decide
        · exact mem_hex4_ne_nl _ x h3

theorem escList_ne_nl (cs : List Char) : ∀ x ∈ escList cs, x ≠ '\n' := by
  intro x hx
  simp only [escList, List.mem_flatten, List.mem_map] at hx
  obtain ⟨l, ⟨c, _, rfl⟩, hxin⟩ := hx
  exact escChar_ne_nl c x hxin

theorem dumpString_ne_nl (s : String) : ∀ x ∈ dumpString s, x ≠ '\n' := by
  intro x hx
  simp only [dumpString, List.mem_cons, List.mem_append] at hx
  rcases hx with h | h | h
  · subst h; decide
  · exact escList_ne_nl s.data x h
  · simp at h; subst h; decide

theorem dumpMsg_ne_nl (m : Msg) : ∀ x ∈ dumpMsg m, x ≠ '\n' := by
  intro x hx
  simp only [dumpMsg, List.mem_append] at hx
  rcases hx with (((h | h) | h) | h) | h
  · exact (by decide : ∀ y ∈ "\x7b\"role\": ".data, y ≠ '\n') x h
  · exact dumpString_ne_nl m.role x h
  · exact (by decide : ∀ y ∈ ", \"content\": ".data, y ≠ '\n') x h
  · exact dumpString_ne_nl m.content x h
  · exact (by decide : ∀ y ∈ "\x7d".data, y ≠ '\n') x h

theorem dumpMsgs_ne_nl (ms : List Msg) : ∀ x ∈ dumpMsgs ms, x ≠ '\n' := by
  cases ms with
  | nil => exact (by decide : ∀ y ∈ "[]".data, y ≠ '\n')
  | cons m rest =>
    intro x hx
    simp only [dumpMsgs, List.mem_cons, List.mem_append, List.mem_flatten,
      List.mem_map] at hx
    rcases hx with h | ((h | ⟨l, ⟨y, _, rfl⟩, hxin⟩) | h)
    · subst h; decide
    · exact dumpMsg_ne_nl m x h
    · simp only [List.mem_append] at hxin
      rcases hxin with h | h
      · exact (by decide : ∀ y ∈ ", ".data, y ≠ '\n') x h
      · exact dumpMsg_ne_nl y x h
    · simp at h; subst h; decide

theorem dumpConv_ne_nl (c : Conv) : ∀ x ∈ dumpConv c, x ≠ '\n' := by
  intro x hx
  simp only [dumpConv, List.mem_append] at hx
  rcases hx with (h | h) | h
  · exact (by decide : ∀ y ∈ "\x7b\"messages\": ".data, y ≠ '\n') x h
  · exact dumpMsgs_ne_nl c.messages x h
  · exact (by decide : ∀ y ∈ "\x7d".data, y ≠ '\n') x h

theorem splitLinesAux_take_line (l : List Char) (hl : ∀ x ∈ l, x ≠ '\n') :
    ∀ (cs acc : List Char),
      splitLinesAux (l ++ '\n' :: cs) acc
        = (acc.reverse ++ l) :: splitLinesAux cs [] := by
  induction l with
  | nil => intro cs acc; simp [splitLinesAux]
  | cons x xs ih =>
    intro cs acc
    have hx : x ≠ '\n' := hl x (by simp)
    have hrest : ∀ y ∈ xs, y ≠ '\n' := fun y hy => hl y (by simp [hy])
    simp only [List.cons_append, splitLinesAux, hx, if_false, reduceIte,
      List.append_eq]
    rw [ih hrest cs (x :: acc)]
    simp

theorem splitLines_write (convs : List Conv) :
    splitLinesAux (write_jsonl convs) [] = convs.map dumpConv := by
  induction convs with
  | nil => rfl
  | cons c cs ih =>
    have h1 : write_jsonl (c :: cs) = dumpConv c ++ '\n' :: write_jsonl cs := by
      simp [write_jsonl]
    rw [h1, splitLinesAux_take_line (dumpConv c) (dumpConv_ne_nl c), ih]
    simp

/-- C5: writing any list of conversation records with the line-delimited
JSON writer and parsing the file back line by line returns exactly the
original records, field for field and in order. -/
theorem claim_C5_jsonl_roundtrip (data_list : List Conv) :
    read_jsonl (write_jsonl data_list) = some data_list := by
  unfold read_jsonl
  rw [splitLines_write]
  induction data_list with
  | nil => rfl
  | cons c cs ih =>
    simp only [List.map_cons, List.mapM_cons, json_loads_line_dumpConv, ih,
      Option.bind_eq_bind, Option.some_bind, Option.pure_def]

end CTD
